import Mathlib

/-!
Shallow embedding of the `ai-together-backend` websocket image handler
(`src/main.go`).  The handler reads framed text messages in a loop,
decodes each as a JSON `ImageData` envelope and dispatches on the
`command` field:

* `upload`: if the payload starts with `data:image/`, the substring
  after the first `,` is base64-decoded (Go `base64.StdEncoding`) and
  written to `images/<id>.jpg` (`os.Create` truncates, then `Write`).
* `request`: if `id` is non-empty and `images/<id>.jpg` exists, the
  file bytes are base64-encoded and sent back as one text message
  `data:image/jpg;base64,<encoded>`; a transport send failure is
  logged and its unlabeled `break` exits only the enclosing `switch`,
  so the read loop continues with the next message.
* anything else: logged, no action.

The only statement that terminates the read loop is the `break` taken
when `conn.ReadMessage` fails, which sits directly in the `for`.

The filesystem is modelled as an association list from file name to
byte content; bytes are `Nat` (values < 256 by construction of the
decoder).  Filesystem and transport failures of the Go code are made
explicit through an `Env` of failure flags attached to each inbound
message, and a transport read failure is its own inbound event.
-/

namespace AiTogether

/-- Base64 standard alphabet, as in Go `base64.StdEncoding`. -/
def b64Alphabet : List Char :=
  "ABCDEFGHIJKLMNOPQRSTUVWXYZabcdefghijklmnopqrstuvwxyz0123456789+/".data

/-- Position of a character in a list, used for alphabet lookup. -/
def b64IndexAux : List Char → Char → Nat → Option Nat
  | [], _, _ => none
  | a :: rest, c, i => if a = c then some i else b64IndexAux rest c (i + 1)

/-- Value of a base64 digit, `none` for characters outside the alphabet. -/
def b64Index (c : Char) : Option Nat :=
  b64IndexAux b64Alphabet c 0

/-- Character for a 6-bit value. -/
def b64Char (n : Nat) : Char :=
  b64Alphabet.getD n 'A'

/-- Decode whitespace-free base64 text in 4-character quanta, as Go
`base64.StdEncoding.DecodeString` does after `\r`/`\n` removal: padding
is mandatory, `=` may occur only at the end, and (default, non-strict
mode) non-zero trailing padding bits are accepted and discarded. -/
def decodeB64Aux : List Char → Option (List Nat)
  | [] => some []
  | c0 :: c1 :: c2 :: c3 :: rest =>
    match b64Index c0, b64Index c1 with
    | some v0, some v1 =>
      if c2 = '=' then
        if c3 = '=' then
          match rest with
          | [] => some [v0 * 4 + v1 / 16]
          | _ => none
        else none
      else
        match b64Index c2 with
        | some v2 =>
          if c3 = '=' then
            match rest with
            | [] => some [v0 * 4 + v1 / 16, v1 % 16 * 16 + v2 / 4]
            | _ => none
          else
            match b64Index c3 with
            | some v3 =>
              match decodeB64Aux rest with
              | some bs =>
                some ((v0 * 4 + v1 / 16) :: (v1 % 16 * 16 + v2 / 4) ::
                      (v2 % 4 * 64 + v3) :: bs)
              | none => none
            | none => none
        | none => none
    | _, _ => none
  | _ => none

/-- Go `base64.StdEncoding.DecodeString`: the decoder ignores `\r` and
`\n`, then decodes in padded 4-character quanta. -/
def decodeBase64 (s : List Char) : Option (List Nat) :=
  decodeB64Aux (s.filter fun c => !(c == '\r' || c == '\n'))

/-- Go `base64.StdEncoding.EncodeToString` on a byte list. -/
def encodeB64 : List Nat → List Char
  | [] => []
  | [b0] => [b64Char (b0 / 4), b64Char (b0 % 4 * 16), '=', '=']
  | [b0, b1] =>
    [b64Char (b0 / 4), b64Char (b0 % 4 * 16 + b1 / 16), b64Char (b1 % 16 * 4), '=']
  | b0 :: b1 :: b2 :: rest =>
    b64Char (b0 / 4) :: b64Char (b0 % 4 * 16 + b1 / 16) ::
    b64Char (b1 % 16 * 4 + b2 / 64) :: b64Char (b2 % 64) :: encodeB64 rest

/-- Content of the string after its first `,`, or `none` when there is
no comma: the combination of Go `strings.Index(s, ",") + 1` (with the
`<= 0` guard) and the slice `s[imageDataIndex:]` in the upload branch. -/
def afterComma : List Char → Option (List Char)
  | [] => none
  | c :: cs => if c = ',' then some cs else afterComma cs

/-- The `images/` directory: file name to byte content, latest write
first. -/
abbrev Store := List (String × List Nat)

/-- Filesystem presence check plus full read of a file. -/
def getStore : Store → String → Option (List Nat)
  | [], _ => none
  | (k, v) :: rest, key => if k = key then some v else getStore rest key

/-- Create-or-truncate followed by a full write of a file. -/
def setStore (s : Store) (k : String) (v : List Nat) : Store :=
  (k, v) :: s

/-- JSON values, numbers kept abstract as integers (no float in the
envelope is ever used). -/
inductive Json where
  | null
  | bool (b : Bool)
  | num (n : Int)
  | str (s : String)
  | arr (xs : List Json)
  | obj (fields : List (String × Json))

/-- The wire envelope of `src/main.go`: `ImageData` with JSON tags
`command`, `id`, `base64Img`. -/
structure ImageData where
  command : String
  id : String
  base64Img : String
  deriving DecidableEq, Repr

/-- ASCII case folding of a JSON object key, as Go `encoding/json`
applies when matching keys against struct field names. -/
def foldKey (s : String) : List Char :=
  s.data.map Char.toLower

/-- Go `encoding/json` object decoding into `ImageData`: fields are
processed in order and a later duplicate key overwrites.  A key is
matched against a JSON tag exactly or through the ASCII
case-insensitive fallback; both comparisons collapse into one folded
comparison here because the three tags are pairwise distinct after
folding.  A key matching no tag is ignored whatever its value; a
matched key with a JSON `null` value leaves the field at its current
value (Go leaves the zero value, no error); a matched key with any
other non-string value is an unmarshal error. -/
def unmarshalFields : ImageData → List (String × Json) → Option ImageData
  | d, [] => some d
  | d, (k, v) :: rest =>
    if foldKey k = "command".data then
      match v with
      | Json.str s => unmarshalFields { d with command := s } rest
      | Json.null => unmarshalFields d rest
      | _ => none
    else if foldKey k = "id".data then
      match v with
      | Json.str s => unmarshalFields { d with id := s } rest
      | Json.null => unmarshalFields d rest
      | _ => none
    else if foldKey k = "base64img".data then
      match v with
      | Json.str s => unmarshalFields { d with base64Img := s } rest
      | Json.null => unmarshalFields d rest
      | _ => none
    else unmarshalFields d rest

/-- Go `json.Unmarshal` of one message body into `ImageData`: an object
fills the struct from its fields starting at zero values, JSON `null`
leaves the struct at its zero value, and any other top-level value is
an unmarshal error. -/
def unmarshalImageData : Json → Option ImageData
  | Json.obj fields => unmarshalFields ⟨"", "", ""⟩ fields
  | Json.null => some ⟨"", "", ""⟩
  | _ => none

/-- One inbound message body: either not parseable as JSON at all, or a
JSON value. -/
inductive RawMsg where
  | invalid
  | json (j : Json)

/-- Decoding step of the read loop (`json.Unmarshal` on the message). -/
def decodeEnvelope : RawMsg → Option ImageData
  | RawMsg.invalid => none
  | RawMsg.json j => unmarshalImageData j

/-- Failure flags for the fallible OS and transport calls one message
can perform: `os.Create`, `file.Write`, `os.Open`, `file.Read`,
`conn.WriteMessage`. -/
structure Env where
  createFail : Bool
  writeFileFail : Bool
  openFail : Bool
  readFileFail : Bool
  sendFail : Bool
  deriving DecidableEq, Repr

/-- Environment in which every OS and transport call succeeds. -/
def okEnv : Env := ⟨false, false, false, false, false⟩

/-- Processing of one decoded-or-not message: the `switch` of
`handleWebSocket`.  Returns the new store and the responses delivered
on the connection (empty or one message).  No branch terminates the
read loop: the `break` in the send-failure arm of the `request` case
sits inside the `switch` and exits only the `switch`, so a transport
send failure merely loses that one response. -/
def processMessage (store : Store) (env : Env) (raw : RawMsg) :
    Store × List String :=
  match decodeEnvelope raw with
  | none => (store, [])
  | some imgData =>
    if imgData.command = "upload" then
      if "data:image/".data.isPrefixOf imgData.base64Img.data then
        match afterComma imgData.base64Img.data with
        | none => (store, [])
        | some imageData =>
          match decodeBase64 imageData with
          | none => (store, [])
          | some imgBytes =>
            if env.createFail then (store, [])
            else if env.writeFileFail then
              (setStore store (imgData.id ++ ".jpg") [], [])
            else (setStore store (imgData.id ++ ".jpg") imgBytes, [])
      else (store, [])
    else if imgData.command = "request" then
      if imgData.id ≠ "" then
        match getStore store (imgData.id ++ ".jpg") with
        | none => (store, [])
        | some content =>
          if env.openFail then (store, [])
          else if env.readFileFail then (store, [])
          else if env.sendFail then (store, [])
          else (store, ["data:image/jpg;base64," ++ String.mk (encodeB64 content)])
      else (store, [])
    else (store, [])

/-- One inbound event of the read loop: a transport read failure, or a
message body together with the fate of the OS and transport calls its
processing would make. -/
inductive Inbound where
  | readFail
  | raw (env : Env) (m : RawMsg)

/-- The read loop of `handleWebSocket` over a finite inbound trace.
Returns the final store, the concatenated delivered responses, and the
suffix of inbound events never processed — non-empty only when the
loop broke on a transport read failure, the single loop-terminating
condition in the source. -/
def handleWebSocket (store : Store) : List Inbound → Store × List String × List Inbound
  | [] => (store, [], [])
  | Inbound.readFail :: rest => (store, [], rest)
  | Inbound.raw env m :: rest =>
    let r := processMessage store env m
    let r' := handleWebSocket r.1 rest
    (r'.1, r.2 ++ r'.2.1, r'.2.2)

/-- JSON body of an `upload` message as the clients send it. -/
def uploadJson (id payload : String) : RawMsg :=
  RawMsg.json (Json.obj
    [("command", Json.str "upload"), ("id", Json.str id),
     ("base64Img", Json.str payload)])

/-- JSON body of a `request` message as the clients send it. -/
def requestJson (id : String) : RawMsg :=
  RawMsg.json (Json.obj [("command", Json.str "request"), ("id", Json.str id)])

/-- Inbound `upload` event with all OS calls succeeding. -/
def uploadMsg (id payload : String) : Inbound :=
  Inbound.raw okEnv (uploadJson id payload)

/-- Inbound `request` event with all OS and transport calls succeeding. -/
def requestMsg (id : String) : Inbound :=
  Inbound.raw okEnv (requestJson id)

/-! ### Basic lemmas about the store, the comma split and the dispatch -/

theorem getStore_setStore_self (s : Store) (k : String) (v : List Nat) :
    getStore (setStore s k v) k = some v := by
  simp [getStore, setStore]

theorem getStore_setStore_of_ne (s : Store) (k k' : String) (v : List Nat)
    (h : k ≠ k') : getStore (setStore s k v) k' = getStore s k' := by
  simp [getStore, setStore, h]

theorem afterComma_append (l1 l2 : List Char) (h : ',' ∉ l1) :
    afterComma (l1 ++ ',' :: l2) = some l2 := by
  induction l1 with
  | nil => simp [afterComma]
  | cons a as ih =>
    have ha : ¬(a = ',') := fun hc => h (by simp [hc])
    have has : ',' ∉ as := fun hc => h (List.mem_cons_of_mem _ hc)
    simp [afterComma, ha, ih has]

theorem isPrefixOf_append (l t : List Char) : l.isPrefixOf (l ++ t) = true := by
  simp [ List.isPrefixOf_iff_prefix]

theorem decodeEnvelope_uploadJson (id p : String) :
    decodeEnvelope (uploadJson id p) = some ⟨"upload", id, p⟩ := rfl

theorem decodeEnvelope_requestJson (id : String) :
    decodeEnvelope (requestJson id) = some ⟨"request", id, ""⟩ := rfl

theorem processMessage_upload_ok (s : Store) (env : Env) (id p : String)
    (r : List Char) (bs : List Nat)
    (hcf : env.createFail = false) (hwf : env.writeFileFail = false)
    (hpre : "data:image/".data.isPrefixOf p.data = true)
    (hcomma : afterComma p.data = some r)
    (hdec : decodeBase64 r = some bs) :
    processMessage s env (uploadJson id p) = (setStore s (id ++ ".jpg") bs, []) := by
  simp [processMessage, decodeEnvelope_uploadJson, hpre, hcomma, hdec, hcf, hwf]

theorem processMessage_request_found (s : Store) (env : Env) (id : String)
    (content : List Nat) (hid : id ≠ "")
    (hfound : getStore s (id ++ ".jpg") = some content)
    (ho : env.openFail = false) (hr : env.readFileFail = false)
    (hs : env.sendFail = false) :
    processMessage s env (requestJson id) =
      (s, ["data:image/jpg;base64," ++ String.mk (encodeB64 content)]) := by
  simp [processMessage, decodeEnvelope_requestJson, hid, hfound, ho, hr, hs]

theorem processMessage_request_missing (s : Store) (env : Env) (id : String)
    (hid : id ≠ "") (hmiss : getStore s (id ++ ".jpg") = none) :
    processMessage s env (requestJson id) = (s, []) := by
  simp [processMessage, decodeEnvelope_requestJson, hid, hmiss]

theorem handleWebSocket_cons (s s₁ : Store) (env : Env) (m : RawMsg)
    (rest : List Inbound) (out : List String)
    (h : processMessage s env m = (s₁, out)) :
    handleWebSocket s (Inbound.raw env m :: rest) =
      ((handleWebSocket s₁ rest).1, out ++ (handleWebSocket s₁ rest).2.1,
       (handleWebSocket s₁ rest).2.2) := by
  simp [handleWebSocket, h]

theorem handleWebSocket_cons_of_noop (s : Store) (env : Env) (m : RawMsg)
    (rest : List Inbound) (h : processMessage s env m = (s, [])) :
    handleWebSocket s (Inbound.raw env m :: rest) = handleWebSocket s rest := by
  simp [handleWebSocket, h]

/-- Exhaustive characterization of one dispatch step: it is a no-op (in
particular on any failed OS call and on a transport send failure), a
successful upload write, or a successful request response.  No outcome
terminates the read loop. -/
theorem processMessage_cases (s : Store) (env : Env) (m : RawMsg) :
    processMessage s env m = (s, []) ∨
    (∃ d bs, decodeEnvelope m = some d ∧ d.command = "upload" ∧
      processMessage s env m = (setStore s (d.id ++ ".jpg") bs, [])) ∨
    (∃ d c, decodeEnvelope m = some d ∧ d.command = "request" ∧ d.id ≠ "" ∧
      getStore s (d.id ++ ".jpg") = some c ∧
      processMessage s env m = (s,
        ["data:image/jpg;base64," ++ String.mk (encodeB64 c)])) := by
  cases hd : decodeEnvelope m with
  | none => left; simp [processMessage, hd]
  | some d =>
    by_cases hcu : d.command = "upload"
    · cases hb : "data:image/".data.isPrefixOf d.base64Img.data with
      | false => left; simp [processMessage, hd, hcu, hb]
      | true =>
        cases hc : afterComma d.base64Img.data with
        | none => left; simp [processMessage, hd, hcu, hb, hc]
        | some r =>
          cases hdec : decodeBase64 r with
          | none => left; simp [processMessage, hd, hcu, hb, hc, hdec]
          | some bs =>
            cases hcf : env.createFail with
            | true => left; simp [processMessage, hd, hcu, hb, hc, hdec, hcf]
            | false =>
              cases hwf : env.writeFileFail with
              | true =>
                right; left
                exact ⟨d, [], rfl, hcu,
                  by simp [processMessage, hd, hcu, hb, hc, hdec, hcf, hwf]⟩
              | false =>
                right; left
                exact ⟨d, bs, rfl, hcu,
                  by simp [processMessage, hd, hcu, hb, hc, hdec, hcf, hwf]⟩
    · by_cases hcr : d.command = "request"
      · by_cases hid : d.id = ""
        · left; simp [processMessage, hd, hcu, hcr, hid]
        · cases hg : getStore s (d.id ++ ".jpg") with
          | none => left; simp [processMessage, hd, hcu, hcr, hid, hg]
          | some c =>
            cases ho : env.openFail with
            | true => left; simp [processMessage, hd, hcu, hcr, hid, hg, ho]
            | false =>
              cases hr : env.readFileFail with
              | true => left; simp [processMessage, hd, hcu, hcr, hid, hg, ho, hr]
              | false =>
                cases hsf : env.sendFail with
                | true =>
                  left; simp [processMessage, hd, hcu, hcr, hid, hg, ho, hr, hsf]
                | false =>
                  right; right
                  exact ⟨d, c, rfl, hcr, hid, hg,
                    by simp [processMessage, hd, hcu, hcr, hid, hg, ho, hr, hsf]⟩
      · left; simp [processMessage, hd, hcu, hcr]

/-! ### Claim theorems -/

/-- C4: a `request` whose id is non-empty but whose file
`<storage-dir>/<id>.jpg` does not exist sends no response, leaves the
store untouched, and the read loop continues with the next message. -/
theorem request_missing_file_noop (s : Store) (env : Env) (id : String)
    (rest : List Inbound) (hid : id ≠ "")
    (hmiss : getStore s (id ++ ".jpg") = none) :
    processMessage s env (requestJson id) = (s, []) ∧
    handleWebSocket s (Inbound.raw env (requestJson id) :: rest) =
      handleWebSocket s rest := by
  have h := processMessage_request_missing s env id hid hmiss
  exact ⟨h, handleWebSocket_cons_of_noop s env _ rest h⟩

theorem request_missing_file_noop_witness :
    processMessage [] okEnv (requestJson "a") = ([], []) ∧
    handleWebSocket [] [Inbound.raw okEnv (requestJson "a"), requestMsg "b"] =
      handleWebSocket [] [requestMsg "b"] :=
  request_missing_file_noop [] okEnv "a" [requestMsg "b"] (by decide) rfl

/-- C5: a message body whose JSON decoding fails does not terminate the
connection; the loop continues, and the remaining trace is handled
exactly as if the malformed message had never been received. -/
theorem malformed_message_skipped (s : Store) (env : Env) (m : RawMsg)
    (rest : List Inbound) (h : decodeEnvelope m = none) :
    handleWebSocket s (Inbound.raw env m :: rest) = handleWebSocket s rest := by
  apply handleWebSocket_cons_of_noop
  simp [processMessage, h]

theorem malformed_message_skipped_witness :
    handleWebSocket [] [Inbound.raw okEnv RawMsg.invalid, requestMsg "a"] =
      handleWebSocket [] [requestMsg "a"] :=
  malformed_message_skipped [] okEnv RawMsg.invalid [requestMsg "a"] rfl

/-- C1 fails as stated: `AB==` is accepted by Go's (default, lenient)
base64 decoder, but its trailing padding bits are non-zero, so the
stored byte is `0` and the re-encoding sent back is `AA==`, not the
uploaded text `AB==`. -/
theorem round_trip_counterexample :
    (handleWebSocket [] [uploadMsg "a" "data:image/png;base64,AB==",
                         requestMsg "a"]).2.1 = ["data:image/jpg;base64,AA=="] ∧
    ("data:image/jpg;base64,AA==" : String) ≠ "data:image/jpg;base64,AB==" :=
  ⟨rfl, by decide⟩

/-- C1 (amended): for a payload `data:image/<x>;base64,<b64>` where
`<x>` contains no comma and `<b64>` is canonical base64 (re-encoding
its decoding yields `<b64>` again — in particular no ignored `\r`/`\n`
characters and zero trailing padding bits) and the id is non-empty,
an `upload` for id `I` followed by a `request` for id `I` produces
exactly one response, byte-identical to
`"data:image/jpg;base64," ++ <b64>`. -/
theorem upload_then_request_round_trip (s : Store) (id x b64 : String)
    (bs : List Nat) (hid : id ≠ "") (hx : ',' ∉ x.data)
    (hdec : decodeBase64 b64.data = some bs)
    (hcanon : encodeB64 bs = b64.data) :
    (handleWebSocket s [uploadMsg id ("data:image/" ++ x ++ ";base64," ++ b64),
                        requestMsg id]).2.1 = ["data:image/jpg;base64," ++ b64] := by
  set p := "data:image/" ++ x ++ ";base64," ++ b64 with hp
  have hdata : p.data =
      ("data:image/".data ++ (x.data ++ [';', 'b', 'a', 's', 'e', '6', '4'])) ++
        ',' :: b64.data := by
    rw [hp]
    simp only [String.data_append, List.append_assoc]
    rfl
  have hpre : "data:image/".data.isPrefixOf p.data = true := by
    rw [hp]
    simp only [String.data_append, List.append_assoc]
    exact isPrefixOf_append _ _
  have hcomma : afterComma p.data = some b64.data := by
    rw [hdata]
    apply afterComma_append
    intro hmem
    rcases List.mem_append.mp hmem with hmem | hmem
    · exact absurd hmem (by decide)
    · rcases List.mem_append.mp hmem with hmem | hmem
      · exact hx hmem
      · exact absurd hmem (by decide)
  have h1 := processMessage_upload_ok s okEnv id p b64.data bs rfl rfl hpre hcomma hdec
  have h2 := processMessage_request_found (setStore s (id ++ ".jpg") bs) okEnv id bs
    hid (getStore_setStore_self s (id ++ ".jpg") bs) rfl rfl rfl
  show (handleWebSocket s
      (Inbound.raw okEnv (uploadJson id p) :: [Inbound.raw okEnv (requestJson id)])).2.1 = _
  rw [handleWebSocket_cons s _ okEnv _ _ _ h1,
      handleWebSocket_cons _ _ okEnv _ _ _ h2]
  simp [handleWebSocket, hcanon]

theorem upload_then_request_round_trip_witness :
    (handleWebSocket [] [uploadMsg "k" ("data:image/" ++ "png" ++ ";base64," ++ "iVBORw=="),
                         requestMsg "k"]).2.1 = ["data:image/jpg;base64," ++ "iVBORw=="] :=
  upload_then_request_round_trip [] "k" "png" "iVBORw==" [137, 80, 78, 71]
    (by decide) (by decide) rfl rfl

/-- C2 fails as stated: for the payload `data:image/png;base64,`,
whose base64 segment is empty, the empty segment decodes successfully
to zero bytes (Go `DecodeString("")` returns an empty slice and no
error), so the upload is not skipped: the file `a.jpg` is created, with
empty content. -/
theorem empty_segment_counterexample :
    getStore (processMessage [] okEnv (uploadJson "a" "data:image/png;base64,")).1
        "a.jpg" = some [] ∧
    (processMessage [] okEnv (uploadJson "a" "data:image/png;base64,")).1 ≠ [] :=
  ⟨rfl, by decide⟩

/-- C2 (amended): an upload whose payload starts with `data:image/` and
ends at its first comma is not skipped: the empty base64 segment
decodes to zero bytes, so (when `os.Create` succeeds) an empty file
`<id>.jpg` is created or truncated; no response is sent and the
connection continues. -/
theorem empty_base64_segment_stores_empty_file (s : Store) (env : Env)
    (id p : String) (l1 : List Char)
    (hcf : env.createFail = false)
    (hpre : "data:image/".data.isPrefixOf p.data = true)
    (hsplit : p.data = l1 ++ [',']) (hl1 : ',' ∉ l1) :
    processMessage s env (uploadJson id p) = (setStore s (id ++ ".jpg") [], []) := by
  have hcomma : afterComma p.data = some [] := by
    rw [hsplit]
    exact afterComma_append l1 [] hl1
  have hdec : decodeBase64 [] = some [] := rfl
  simp [processMessage, decodeEnvelope_uploadJson, hpre, hcomma, hdec, hcf]

theorem empty_base64_segment_stores_empty_file_witness :
    processMessage [] okEnv (uploadJson "a" "data:image/png;base64,") =
      (setStore [] ("a" ++ ".jpg") [], []) :=
  empty_base64_segment_stores_empty_file [] okEnv "a" "data:image/png;base64,"
    "data:image/png;base64".data rfl (by decide) (by decide) (by decide)

/-- C3: an upload that fails before storage — payload without the
`data:image/` prefix, or without any comma, or with an invalid base64
segment after the first comma — changes no file, sends no response,
keeps the loop running, and a subsequent `request` for that id (absent
from the store) yields no response. -/
theorem failed_upload_stores_nothing (s : Store) (env env' : Env) (id p : String)
    (rest : List Inbound)
    (hfail : "data:image/".data.isPrefixOf p.data = false ∨
             afterComma p.data = none ∨
             ∃ r, afterComma p.data = some r ∧ decodeBase64 r = none) :
    processMessage s env (uploadJson id p) = (s, []) ∧
    handleWebSocket s (Inbound.raw env (uploadJson id p) :: rest) =
      handleWebSocket s rest ∧
    (getStore s (id ++ ".jpg") = none →
      processMessage s env' (requestJson id) = (s, [])) := by
  have hnoop : processMessage s env (uploadJson id p) = (s, []) := by
    rcases hfail with hnp | hcomma | ⟨r, hr, hdec⟩
    · simp [processMessage, decodeEnvelope_uploadJson, hnp]
    · cases hb : "data:image/".data.isPrefixOf p.data <;>
        simp [processMessage, decodeEnvelope_uploadJson, hb, hcomma]
    · cases hb : "data:image/".data.isPrefixOf p.data <;>
        simp [processMessage, decodeEnvelope_uploadJson, hb, hr, hdec]
  refine ⟨hnoop, handleWebSocket_cons_of_noop s env _ rest hnoop, fun hmiss => ?_⟩
  by_cases hid : id = ""
  · subst hid
    simp [processMessage, decodeEnvelope_requestJson]
  · exact processMessage_request_missing s env' id hid hmiss

theorem failed_upload_stores_nothing_witness :
    processMessage [] okEnv (uploadJson "a" "hello") = ([], []) ∧
    handleWebSocket [] [Inbound.raw okEnv (uploadJson "a" "hello"),
                        Inbound.raw okEnv (requestJson "b")] =
      handleWebSocket [] [Inbound.raw okEnv (requestJson "b")] ∧
    (getStore [] ("a" ++ ".jpg") = none →
      processMessage [] okEnv (requestJson "a") = ([], [])) :=
  failed_upload_stores_nothing [] okEnv okEnv "a" "hello"
    [Inbound.raw okEnv (requestJson "b")] (Or.inl (by decide))

/-- C6 fails as stated: the `break` taken when `conn.WriteMessage`
fails sits inside the `switch` and, as an unlabeled Go `break`, exits
only the `switch` — the read loop is not terminated.  Concretely,
after a `request` whose transport send fails, the next inbound message
is still processed: here the second `request` for the same id is
answered. -/
theorem send_failure_not_fatal_counterexample :
    handleWebSocket [("a.jpg", [0])]
        [Inbound.raw ⟨false, false, false, false, true⟩ (requestJson "a"),
         requestMsg "a"] =
      ([("a.jpg", [0])], ["data:image/jpg;base64,AA=="], []) := rfl

/-- C6 (amended): a transport-level failure is connection-fatal in
exactly one place: a failure of `conn.ReadMessage` terminates the read
loop, leaving the remaining inbound events unprocessed.  Every trace
consisting only of messages — transport send failures included — is
processed to the end: a send failure merely loses that one response. -/
theorem read_failure_only_fatal :
    (∀ (s : Store) (rest : List Inbound),
      handleWebSocket s (Inbound.readFail :: rest) = (s, [], rest)) ∧
    (∀ (s : Store) (msgs : List Inbound),
      (∀ ev ∈ msgs, ∃ env m, ev = Inbound.raw env m) →
        (handleWebSocket s msgs).2.2 = []) := by
  refine ⟨fun s rest => rfl, ?_⟩
  intro s msgs h
  induction msgs generalizing s with
  | nil => rfl
  | cons ev rest ih =>
    obtain ⟨env, m, rfl⟩ := h _ (List.mem_cons_self _ _)
    simp only [handleWebSocket]
    exact ih (processMessage s env m).1 (fun ev hev => h ev (List.mem_cons_of_mem _ hev))

theorem read_failure_only_fatal_witness :
    handleWebSocket [] [Inbound.readFail, requestMsg "a"] =
      ([], [], [requestMsg "a"]) ∧
    (handleWebSocket [("a.jpg", [0])]
        [Inbound.raw ⟨false, false, false, false, true⟩ (requestJson "a"),
         uploadMsg "b" "data:image/png;base64,AA=="]).2.2 = [] := by
  refine ⟨read_failure_only_fatal.1 [] [requestMsg "a"], ?_⟩
  refine read_failure_only_fatal.2 _ _ (fun ev hev => ?_)
  rcases List.mem_cons.mp hev with rfl | hev2
  · exact ⟨_, _, rfl⟩
  · rcases List.mem_cons.mp hev2 with rfl | hev3
    · exact ⟨_, _, rfl⟩
    · exact absurd hev3 (List.not_mem_nil _)

/-- C7: the store key touched by any message is exactly the decoded
envelope's id used verbatim with the fixed extension `.jpg` (upload
write path), the key a response is read from is the same, and every
response carries the literal label `data:image/jpg;base64,` regardless
of the stored content. -/
theorem verbatim_id_and_fixed_label (s : Store) (env : Env) (m : RawMsg) :
    (∀ k, getStore (processMessage s env m).1 k ≠ getStore s k →
      ∃ d, decodeEnvelope m = some d ∧ d.command = "upload" ∧
        k = d.id ++ ".jpg") ∧
    (∀ out, out ∈ (processMessage s env m).2 →
      ∃ d c, decodeEnvelope m = some d ∧ d.command = "request" ∧
        getStore s (d.id ++ ".jpg") = some c ∧
        out = "data:image/jpg;base64," ++ String.mk (encodeB64 c)) := by
  rcases processMessage_cases s env m with hc | ⟨d, bs, hd, hcu, hc⟩ |
    ⟨d, c, hd, hcr, hid, hg, hc⟩ <;> rw [hc]
  · exact ⟨fun k hk => absurd rfl hk, fun out hout => absurd hout (by simp)⟩
  · refine ⟨fun k hk => ⟨d, hd, hcu, ?_⟩, fun out hout => absurd hout (by simp)⟩
    by_contra hne
    exact hk (getStore_setStore_of_ne s (d.id ++ ".jpg") k bs
      (fun he => hne he.symm))
  · refine ⟨fun k hk => absurd rfl hk, fun out hout => ?_⟩
    have : out = "data:image/jpg;base64," ++ String.mk (encodeB64 c) := by
      simpa using hout
    exact ⟨d, c, hd, hcr, hg, this⟩

theorem verbatim_id_and_fixed_label_witness :
    ∃ d, decodeEnvelope (uploadJson "../secret" "data:image/png;base64,AA==") =
        some d ∧ d.command = "upload" ∧ ("../secret.jpg" : String) = d.id ++ ".jpg" :=
  (verbatim_id_and_fixed_label [] okEnv
    (uploadJson "../secret" "data:image/png;base64,AA==")).1 "../secret.jpg"
    (by decide)

/-- C8 fails as stated at the empty id: both uploads succeed and the
file `.jpg` holds the second upload's decoded bytes, but the
subsequent `request` for the same (empty) id is blocked by the
`imgData.ID != ""` guard and returns no response at all. -/
theorem second_upload_empty_id_counterexample :
    getStore (handleWebSocket []
        [uploadMsg "" "data:image/png;base64,AA==",
         uploadMsg "" "data:image/gif;base64,iVBORw==",
         requestMsg ""]).1 ".jpg" = some [137, 80, 78, 71] ∧
    (handleWebSocket []
        [uploadMsg "" "data:image/png;base64,AA==",
         uploadMsg "" "data:image/gif;base64,iVBORw==",
         requestMsg ""]).2.1 = [] :=
  ⟨rfl, rfl⟩

/-- C8 (amended): two successful uploads for the same id in sequence
leave the file holding exactly the decoded bytes of the second payload
(`os.Create` truncates, so the first content is replaced, not appended
to); a subsequent `request` returns that second content when the id is
non-empty, and no response when the id is empty. -/
theorem second_upload_wins (s : Store) (id p1 p2 : String) (r1 r2 : List Char)
    (bs1 bs2 : List Nat)
    (hpre1 : "data:image/".data.isPrefixOf p1.data = true)
    (hc1 : afterComma p1.data = some r1) (hd1 : decodeBase64 r1 = some bs1)
    (hpre2 : "data:image/".data.isPrefixOf p2.data = true)
    (hc2 : afterComma p2.data = some r2) (hd2 : decodeBase64 r2 = some bs2) :
    getStore (handleWebSocket s
        [uploadMsg id p1, uploadMsg id p2, requestMsg id]).1 (id ++ ".jpg") =
      some bs2 ∧
    (id ≠ "" →
      (handleWebSocket s [uploadMsg id p1, uploadMsg id p2, requestMsg id]).2.1 =
        ["data:image/jpg;base64," ++ String.mk (encodeB64 bs2)]) := by
  have h1 := processMessage_upload_ok s okEnv id p1 r1 bs1 rfl rfl hpre1 hc1 hd1
  have h2 := processMessage_upload_ok (setStore s (id ++ ".jpg") bs1) okEnv id p2
    r2 bs2 rfl rfl hpre2 hc2 hd2
  by_cases hid : id = ""
  · subst hid
    have h3 : processMessage
        (setStore (setStore s ("" ++ ".jpg") bs1) ("" ++ ".jpg") bs2) okEnv
        (requestJson "") =
        (setStore (setStore s ("" ++ ".jpg") bs1) ("" ++ ".jpg") bs2, []) := by
      simp [processMessage, decodeEnvelope_requestJson]
    simp only [uploadMsg, requestMsg]
    rw [handleWebSocket_cons _ _ okEnv _ _ _ h1,
        handleWebSocket_cons _ _ okEnv _ _ _ h2,
        handleWebSocket_cons _ _ okEnv _ _ _ h3]
    exact ⟨getStore_setStore_self _ ("" ++ ".jpg") bs2, fun hne => absurd rfl hne⟩
  · have h3 := processMessage_request_found
      (setStore (setStore s (id ++ ".jpg") bs1) (id ++ ".jpg") bs2) okEnv id bs2
      hid (getStore_setStore_self _ (id ++ ".jpg") bs2) rfl rfl rfl
    simp only [uploadMsg, requestMsg]
    rw [handleWebSocket_cons _ _ okEnv _ _ _ h1,
        handleWebSocket_cons _ _ okEnv _ _ _ h2,
        handleWebSocket_cons _ _ okEnv _ _ _ h3]
    exact ⟨getStore_setStore_self _ (id ++ ".jpg") bs2, fun _ => rfl⟩

theorem second_upload_wins_witness :
    getStore (handleWebSocket []
        [uploadMsg "k" "data:image/png;base64,AA==",
         uploadMsg "k" "data:image/gif;base64,iVBORw==",
         requestMsg "k"]).1 ("k" ++ ".jpg") = some [137, 80, 78, 71] ∧
    (handleWebSocket []
        [uploadMsg "k" "data:image/png;base64,AA==",
         uploadMsg "k" "data:image/gif;base64,iVBORw==",
         requestMsg "k"]).2.1 =
      ["data:image/jpg;base64," ++ String.mk (encodeB64 [137, 80, 78, 71])] := by
  have h := second_upload_wins [] "k" "data:image/png;base64,AA=="
    "data:image/gif;base64,iVBORw==" "AA==".data "iVBORw==".data [0]
    [137, 80, 78, 71] rfl rfl rfl rfl rfl rfl
  exact ⟨h.1, h.2 (by decide)⟩

/-- C9: `upload` performs no non-emptiness check on the id: with an
empty id and a valid payload the file `.jpg` is written; and that file
is unreachable through the protocol, because a `request` with an empty
id takes no action and sends no response. -/
theorem empty_id_upload_unreachable (s : Store) (p : String) (r : List Char)
    (bs : List Nat)
    (hpre : "data:image/".data.isPrefixOf p.data = true)
    (hcomma : afterComma p.data = some r) (hdec : decodeBase64 r = some bs) :
    processMessage s okEnv (uploadJson "" p) = (setStore s ".jpg" bs, []) ∧
    (∀ (s' : Store) (env : Env),
      processMessage s' env (requestJson "") = (s', [])) := by
  constructor
  · exact processMessage_upload_ok s okEnv "" p r bs rfl rfl hpre hcomma hdec
  · intro s' env
    simp [processMessage, decodeEnvelope_requestJson]

theorem empty_id_upload_unreachable_witness :
    processMessage [] okEnv (uploadJson "" "data:image/png;base64,AA==") =
      (setStore [] ".jpg" [0], []) ∧
    (∀ (s' : Store) (env : Env),
      processMessage s' env (requestJson "") = (s', [])) :=
  empty_id_upload_unreachable [] "data:image/png;base64,AA==" "AA==".data [0]
    rfl rfl rfl

end AiTogether
